import Mathlib

/-!
Verification development for the shared orchestration core of the
entity-agents repository (TypeScript). The definitions below are a shallow
embedding of `src/shared/git.ts`, `src/shared/notifier.ts` and
`src/shared/base-agent.ts`: subprocess execution is modelled by an
environment mapping each command string to its outcome, JavaScript promise
rejections are modelled by the `Except` monad, and the few places where the
behaviour of the Node.js runtime itself matters (shell interpretation by
`child_process.exec`, the error objects produced by a failed `exec`) are
modelled explicitly and documented at the definition site.
-/

namespace EntityAgents

/-- Outcome of one subprocess invocation, as observed through
`promisify(exec)`: either a resolved promise carrying stdout, or a rejected
promise carrying an error message. -/
inductive ExecResult
  | ok (stdout : String)
  | err (msg : String)
deriving DecidableEq

/-- A subprocess environment: what each command string would produce if run.
One fixed environment models one repository / machine state. -/
def Exec : Type := String → ExecResult

/-- TaskResult record from `src/shared/types.ts` (the optional fields that no
claim mentions are omitted; `filesChanged` is always `[]` when produced by
`runTask`). -/
structure TaskResult where
  success : Bool
  output : String
  filesChanged : List String
  duration : Nat
deriving DecidableEq

/-- ApprovalRequest record from `src/shared/types.ts`. `createdAt` is the
millisecond clock value observed at creation. -/
structure ApprovalRequest where
  taskId : String
  description : String
  details : String
  options : List String
  createdAt : Nat
deriving DecidableEq

/-- CommitResult record from `src/shared/types.ts`. -/
structure CommitResult where
  hash : Option String
  files : List String
  message : Option String
deriving DecidableEq

/-- Whitespace characters stripped by the JavaScript string `trim` method
(the common ones occurring in subprocess output). -/
def isWhitespaceChar (c : Char) : Bool :=
  c == ' ' || c == '\t' || c == '\n' || c == '\r'

/-- Drop leading whitespace characters from a character list. -/
def dropLeadingWs : List Char → List Char
  | [] => []
  | c :: cs => if isWhitespaceChar c then dropLeadingWs cs else c :: cs

/-- The JavaScript string `trim` method: remove whitespace from both ends. -/
def trimString (s : String) : String :=
  String.mk (dropLeadingWs (dropLeadingWs s.data.reverse).reverse)

/-- The JavaScript `split` on a newline character, over character lists:
always returns at least one (possibly empty) piece. -/
def splitOnNewline : List Char → List (List Char)
  | [] => [[]]
  | c :: cs =>
    if c = '\n' then [] :: splitOnNewline cs
    else
      match splitOnNewline cs with
      | [] => [[c]]
      | h :: t => (c :: h) :: t

namespace GitClient

/-- GitClient.run from `src/shared/git.ts`: execute the command in the
project root and return trimmed stdout; a rejected exec promise propagates
as an exception (`Except.error`). -/
def run (env : Exec) (command : String) : Except String String :=
  match env command with
  | ExecResult.ok stdout => Except.ok (trimString stdout)
  | ExecResult.err msg => Except.error msg

/-- GitClient.status from `src/shared/git.ts`. -/
def status (env : Exec) : Except String String :=
  run env "git status --porcelain"

/-- GitClient.diffNames from `src/shared/git.ts`: split trimmed output on
newlines and drop empty lines; an empty output yields the empty list. -/
def diffNames (env : Exec) : Except String (List String) :=
  (run env "git diff --name-only").map
    (fun output =>
      if output ≠ "" then
        ((splitOnNewline output.data).map String.mk).filter (fun l => l ≠ "")
      else [])

/-- GitClient.add from `src/shared/git.ts` (default path is "."). -/
def add (env : Exec) (path : String) : Except String Unit :=
  (run env ("git add " ++ path)).map (fun _ => ())

/-- GitClient.commit from `src/shared/git.ts`, instrumented with the list of
subprocess commands it issued, in order. The whole body sits in a
try/catch, so a failure of either subprocess call yields `none` rather than
an exception. -/
def commitWithTrace (env : Exec) (message : String) (author : Option String) :
    Option String × List String :=
  let authorArg := match author with
    | some a => "--author=\"" ++ a ++ " <noreply@entity.com>\""
    | none => ""
  let cmd := "git commit -m \"" ++ message ++ "\" " ++ authorArg
  match run env cmd with
  | Except.error _ => (none, [cmd])
  | Except.ok _ =>
    match run env "git rev-parse HEAD" with
    | Except.error _ => (none, [cmd, "git rev-parse HEAD"])
    | Except.ok hash => (some hash, [cmd, "git rev-parse HEAD"])

/-- GitClient.commit as seen by callers: the catch-all means it always
resolves, returning the new HEAD hash or `null`. -/
def commit (env : Exec) (message : String) (author : Option String) :
    Except String (Option String) :=
  Except.ok (commitWithTrace env message author).1

/-- GitClient.push from `src/shared/git.ts`: try/catch swallowing the error
into `false`. -/
def push (env : Exec) (branch : Option String) : Except String Bool :=
  match run env ("git push origin " ++ branch.getD "") with
  | Except.ok _ => Except.ok true
  | Except.error _ => Except.ok false

/-- GitClient.createBranch from `src/shared/git.ts`: try/catch swallowing
the error into `false`. -/
def createBranch (env : Exec) (name : String) : Except String Bool :=
  match run env ("git checkout -b " ++ name) with
  | Except.ok _ => Except.ok true
  | Except.error _ => Except.ok false

/-- GitClient.checkout from `src/shared/git.ts`: try/catch swallowing the
error into `false`. -/
def checkout (env : Exec) (branch : String) : Except String Bool :=
  match run env ("git checkout " ++ branch) with
  | Except.ok _ => Except.ok true
  | Except.error _ => Except.ok false

/-- GitClient.currentBranch from `src/shared/git.ts`: no try/catch, so a
subprocess failure propagates. -/
def currentBranch (env : Exec) : Except String String :=
  run env "git branch --show-current"

end GitClient

/-! Notifier, from `src/shared/notifier.ts`. -/

/-- The three notification channels of `Notifier.notify`. -/
inductive Channel
  | file
  | macos
  | sms
deriving DecidableEq

/-- NotificationConfig record from `src/shared/types.ts`; `smsPhone` is an
optional field. -/
structure NotificationConfig where
  fileEnabled : Bool
  filePath : String
  macosEnabled : Bool
  smsEnabled : Bool
  smsPhone : Option String
deriving DecidableEq

/-- JavaScript truthiness of the optional `smsPhone` string: an absent field
and the empty string are both falsy. -/
def phoneTruthy : Option String → Bool
  | none => false
  | some s => s != ""

/-- The channels `Notifier.notify` dispatches to, in the order its body
pushes the corresponding promises: file, then desktop popup, then SMS, each
guarded by its configuration flag (SMS additionally by a truthy phone
number). -/
def enabledChannels (cfg : NotificationConfig) : List Channel :=
  (if cfg.fileEnabled then [Channel.file] else []) ++
  (if cfg.macosEnabled then [Channel.macos] else []) ++
  (if cfg.smsEnabled && phoneTruthy cfg.smsPhone then [Channel.sms] else [])

/-- Outcome of one channel delivery attempt as recorded by
`Promise.allSettled`. -/
inductive Settled
  | fulfilled
  | rejected (reason : String)
deriving DecidableEq

/-- A channel environment: `some msg` means the underlying I/O action of
that channel (the file append, or the external `osascript` command) fails
with that message; `none` means it succeeds. -/
def ChannelEnv : Type := Channel → Option String

/-- The log line built by `Notifier.notifyFile`. -/
def formatLine (timestamp level agentName message : String) : String :=
  "[" ++ timestamp ++ "] [" ++ level.toUpper ++ "] " ++ agentName ++ ": " ++ message

/-- Notifier.notify from `src/shared/notifier.ts`, over a file-log state
(the list of lines appended so far to the notification log file). It
collects one promise per enabled channel and awaits them with
`Promise.allSettled`. The file channel appends a formatted line and its
promise rejects if the append fails; the desktop and SMS channels invoke an
external command inside a promise whose executor always resolves (a command
failure only logs a warning), so those attempts always settle fulfilled.
The result pairs each attempted channel with its settled outcome, next to
the new file-log state; the `Except` layer records whether `notify` itself
raised (it never does: `allSettled` absorbs every rejection). -/
def notify (cfg : NotificationConfig) (env : ChannelEnv) (agentName : String)
    (fileLog : List String) (message : String) (level : String) (timestamp : String) :
    Except String (List (Channel × Settled) × List String) :=
  let formatted := formatLine timestamp level agentName message
  let fileRes : List (Channel × Settled) × List String :=
    if cfg.fileEnabled then
      match env Channel.file with
      | some e => ([(Channel.file, Settled.rejected e)], fileLog)
      | none => ([(Channel.file, Settled.fulfilled)], fileLog ++ [formatted])
    else ([], fileLog)
  let macosRes : List (Channel × Settled) :=
    if cfg.macosEnabled then [(Channel.macos, Settled.fulfilled)] else []
  let smsRes : List (Channel × Settled) :=
    if cfg.smsEnabled && phoneTruthy cfg.smsPhone then [(Channel.sms, Settled.fulfilled)] else []
  Except.ok (fileRes.1 ++ macosRes ++ smsRes, fileRes.2)

/-! BaseAgent, from `src/shared/base-agent.ts`. -/

/-- Decimal digit to character, as used by JavaScript number-to-string
conversion. -/
def digitCharOf (d : Nat) : Char :=
  match d with
  | 0 => '0'
  | 1 => '1'
  | 2 => '2'
  | 3 => '3'
  | 4 => '4'
  | 5 => '5'
  | 6 => '6'
  | 7 => '7'
  | 8 => '8'
  | 9 => '9'
  | _ => '*'

/-- Little-endian decimal digits of a natural number, computed with
explicit fuel so that the definition reduces by `rfl` on concrete inputs;
`decDigitsAux_eq_digits` below identifies it with `Nat.digits 10`. -/
def decDigitsAux : Nat → Nat → List Nat
  | 0, _ => []
  | fuel + 1, n => if n = 0 then [] else n % 10 :: decDigitsAux fuel (n / 10)

/-- Decimal string of a natural number, modelling the JavaScript template
interpolation of a non-negative integer (such as `Date.now()`). -/
def natDecimalRepr (n : Nat) : String :=
  if n = 0 then "0" else String.mk (((decDigitsAux n n).map digitCharOf).reverse)

/-- The quote escaping `BaseAgent.runTask` applies to the system prompt and
the task prompt: each double-quote character is replaced by a backslash and
a double quote, and nothing else is changed. -/
def escapeQuotesList : List Char → List Char
  | [] => []
  | c :: cs => if c = '"' then '\\' :: '"' :: escapeQuotesList cs else c :: escapeQuotesList cs

/-- String form of `escapeQuotesList`, embedding the source expression
`s.replace(/"/g, ...)` of `BaseAgent.runTask`. -/
def escapeQuotes (s : String) : String :=
  String.mk (escapeQuotesList s.data)

/-- The exact command string `BaseAgent.runTask` hands to `exec`: the two
texts are quote-escaped and spliced between double quotes into one shell
command line. -/
def buildClaudeCommand (systemPrompt prompt : String) : String :=
  "claude --print --system-prompt \"" ++ escapeQuotes systemPrompt ++ "\" \"" ++
    escapeQuotes prompt ++ "\""

/-- How a subprocess is started: through a shell that interprets the command
string, or directly with an argument vector. -/
inductive SpawnMode
  | shellInterpreted
  | directArgv
deriving DecidableEq

/-- BaseAgent.runTask starts the engine with `child_process.exec`, which
passes the whole command string to the system shell for interpretation
(as opposed to `execFile`, which would pass an argument array directly). -/
def runTaskSpawnMode : SpawnMode := SpawnMode.shellInterpreted

/-- Characters that keep a special meaning to a POSIX shell inside a
double-quoted word: dollar (parameter and command substitution), backtick
(command substitution) and backslash. Modelled from POSIX shell quoting
rules. -/
def shellMetaInDquote (c : Char) : Bool :=
  c == '$' || c == Char.ofNat 96 || c == '\\'

/-- Whether the double-quoted, quote-escaped splice of `prompt` built by
`BaseAgent.runTask` reaches the subprocess as a single literal argument: it
does exactly when the escaped text contains no character that the shell
still interprets inside double quotes. -/
def deliveredLiterally (prompt : String) : Bool :=
  !((escapeQuotes prompt).data.any shellMetaInDquote)

/-- Error object carried by a rejected `promisify(exec)` promise: the
captured stderr (empty when none was captured) and the error message. -/
structure ExecError where
  stderr : String
  message : String
deriving DecidableEq

/-- Outcome of the awaited `execAsync` call in `BaseAgent.runTask`. -/
inductive ExecOutcome
  | ok (stdout : String) (stderr : String)
  | error (e : ExecError)
deriving DecidableEq

/-- The three ways the engine subprocess call can fail, per the spec
taxonomy: non-zero exit, timeout (the child is killed on expiry), and
exceeding the 10 MiB output buffer. -/
inductive EngineFailure
  | nonZeroExit (command : String) (exitCode : Nat) (stderr : String)
  | timeout (command : String) (stderr : String)
  | maxBufferExceeded (stderr : String)
deriving DecidableEq

/-- Modelled from Node.js `child_process` semantics: the rejection error for
a non-zero exit or a killed (timed-out) child carries the message
`Command failed: ` followed by the command, and the rejection for an
exceeded output buffer carries the RangeError message
`stdout maxBuffer length exceeded`; in each case the captured stderr is
attached to the error object. -/
def failureError : EngineFailure → ExecError
  | EngineFailure.nonZeroExit cmd _ st => { stderr := st, message := "Command failed: " ++ cmd }
  | EngineFailure.timeout cmd st => { stderr := st, message := "Command failed: " ++ cmd }
  | EngineFailure.maxBufferExceeded st => { stderr := st, message := "stdout maxBuffer length exceeded" }

/-- Observable events emitted during one `BaseAgent.runTask` call, in
program order. -/
inductive Event
  | logInfo (msg : String)
  | notified (msg : String) (level : String)
  | execCall (command : String)
  | logSuccess (msg : String)
  | logError (msg : String)
deriving DecidableEq

/-- BaseAgent.runTask from `src/shared/base-agent.ts`, as a function of the
engine outcome: it logs and notifies that the task is starting, runs the
engine command, then builds the TaskResult — on success from stdout, on
failure from `error.stderr || error.message` (JavaScript falsiness: the
message is used exactly when the captured stderr is empty) — appends it to
the task history and logs and notifies completion or failure. Returned are
the TaskResult, the new history, and the emitted event trace in program
order. -/
def runTask (systemPrompt : String) (history : List TaskResult) (prompt : String)
    (outcome : ExecOutcome) (startTime endTime : Nat) :
    TaskResult × List TaskResult × List Event :=
  let command := buildClaudeCommand systemPrompt prompt
  let preEvents : List Event :=
    [Event.logInfo ("Starting task: " ++ prompt.take 50 ++ "..."),
     Event.notified "Starting task..." "info",
     Event.execCall command]
  match outcome with
  | ExecOutcome.ok stdout _ =>
    let r : TaskResult :=
      { success := true, output := stdout, filesChanged := [], duration := endTime - startTime }
    (r, history ++ [r],
      preEvents ++
        [Event.logSuccess "Task completed successfully",
         Event.notified "Task completed successfully" "info"])
  | ExecOutcome.error e =>
    let out := if e.stderr ≠ "" then e.stderr else e.message
    let r : TaskResult :=
      { success := false, output := out, filesChanged := [], duration := endTime - startTime }
    (r, history ++ [r],
      preEvents ++
        [Event.logError ("Task failed: " ++ out.take 100),
         Event.notified ("Task failed: " ++ out.take 50) "error"])

/-- The message and level of the completion-side notification of
`BaseAgent.runTask` for a given engine outcome. -/
def completionNotice (outcome : ExecOutcome) : String × String :=
  match outcome with
  | ExecOutcome.ok _ _ => ("Task completed successfully", "info")
  | ExecOutcome.error e =>
    ("Task failed: " ++ (if e.stderr ≠ "" then e.stderr else e.message).take 50, "error")

/-- Mutable approval state of one BaseAgent: the in-memory pending list and
the decoded content of the on-disk `pending_approvals.json` snapshot (the
file holds exactly the JSON serialization of the list modelled here). -/
structure AgentState where
  pendingApprovals : List ApprovalRequest
  approvalsFile : List ApprovalRequest
deriving DecidableEq

/-- BaseAgent.requestApproval from `src/shared/base-agent.ts`: build the
request with a time-based id (`approval_` followed by the millisecond clock
value), the caller options or — only when the caller passes none — the
default three-option list, append it to the pending list, and overwrite the
snapshot file with the full pending list. `now` is the `Date.now()` reading
of this call. -/
def requestApproval (st : AgentState) (now : Nat) (description details : String)
    (options : Option (List String)) : ApprovalRequest × AgentState :=
  let opts := match options with
    | some os => os
    | none => ["Approve", "Reject", "Modify"]
  let request : ApprovalRequest :=
    { taskId := "approval_" ++ natDecimalRepr now
      description := description
      details := details
      options := opts
      createdAt := now }
  let pending := st.pendingApprovals ++ [request]
  (request, { pendingApprovals := pending, approvalsFile := pending })

/-- BaseAgent.commitChanges from `src/shared/base-agent.ts`, instrumented
with the list of git subprocess commands issued, in order. When the diff is
empty it returns hash `none` and an empty file list without staging or
committing; otherwise it stages everything, extends the message with an
optional `Fixes` line (only for a truthy, that is non-zero, issue number)
and the attribution trailer, and commits. A failure of `diffNames` or `add`
propagates as an exception. -/
def commitChanges (env : Exec) (agentName message : String) (issueNumber : Option Nat) :
    Except String (CommitResult × List String) :=
  match GitClient.diffNames env with
  | Except.error e => Except.error e
  | Except.ok changedFiles =>
    if changedFiles = [] then
      Except.ok ({ hash := none, files := [], message := none }, ["git diff --name-only"])
    else
      match GitClient.add env "." with
      | Except.error e => Except.error e
      | Except.ok _ =>
        let fixesLine := match issueNumber with
          | some n => if n ≠ 0 then "\n\nFixes #" ++ natDecimalRepr n else ""
          | none => ""
        let fullMessage := message ++ fixesLine ++
          "\n\nCo-Authored-By: " ++ agentName ++ " <noreply@entity.com>"
        let commitRes := GitClient.commitWithTrace env fullMessage none
        Except.ok ({ hash := commitRes.1, files := changedFiles, message := some fullMessage },
          ["git diff --name-only", "git add ."] ++ commitRes.2)

/-! Helper lemmas. -/

/-- A pattern-matched view of whether an `Except` value is a normal return;
`false` models a thrown exception escaping to the caller. -/
def neverThrew {α : Type} : Except String α → Bool
  | Except.ok _ => true
  | Except.error _ => false

theorem stringData_append (s t : String) : (s ++ t).data = s.data ++ t.data := by
  cases s
  cases t
  rfl

theorem string_append_ne_empty (s t : String) (hs : s ≠ "") : s ++ t ≠ "" := by
  intro h
  apply hs
  have hd : (s ++ t).data = ([] : List Char) := by rw [h]
  rw [stringData_append] at hd
  rcases List.append_eq_nil.mp hd with ⟨h1, _⟩
  cases s
  simp_all

theorem string_append_left_cancel {s a b : String} (h : s ++ a = s ++ b) : a = b := by
  have hd := congrArg String.data h
  rw [stringData_append, stringData_append] at hd
  have := List.append_cancel_left hd
  cases a
  cases b
  simp_all

theorem decDigitsAux_eq_digits : ∀ fuel n, n ≤ fuel → decDigitsAux fuel n = Nat.digits 10 n := by
  intro fuel
  induction fuel with
  | zero =>
    intro n hn
    interval_cases n
    simp [decDigitsAux]
  | succ fuel ih =>
    intro n hn
    match n with
    | 0 => simp [decDigitsAux]
    | m + 1 =>
      have hdiv : (m + 1) / 10 < m + 1 := Nat.div_lt_self (Nat.succ_pos m) (by norm_num)
      rw [decDigitsAux, if_neg (Nat.succ_ne_zero m),
        Nat.digits_def' (by norm_num : 1 < 10) (Nat.succ_pos m), ih ((m + 1) / 10) (by omega)]

theorem digitCharOf_inj (d e : Nat) (hd : d < 10) (he : e < 10)
    (h : digitCharOf d = digitCharOf e) : d = e := by
  interval_cases d <;> interval_cases e <;> revert h <;> decide

theorem map_digitCharOf_inj : ∀ (l1 l2 : List Nat), (∀ x ∈ l1, x < 10) → (∀ x ∈ l2, x < 10) →
    l1.map digitCharOf = l2.map digitCharOf → l1 = l2 := by
  intro l1
  induction l1 with
  | nil =>
    intro l2 _ _ h
    cases l2 with
    | nil => rfl
    | cons y ys => simp at h
  | cons x xs ih =>
    intro l2 h1 h2 h
    cases l2 with
    | nil => simp at h
    | cons y ys =>
      simp only [List.map_cons, List.cons.injEq] at h
      have hx : x = y :=
        digitCharOf_inj x y (h1 x (List.mem_cons_self x xs)) (h2 y (List.mem_cons_self y ys)) h.1
      have hxs : xs = ys := by
        refine ih ys (fun z hz => h1 z (List.mem_cons_of_mem x hz))
          (fun z hz => h2 z (List.mem_cons_of_mem y hz)) h.2
      rw [hx, hxs]

theorem natDecimalRepr_inj {n m : Nat} (h : natDecimalRepr n = natDecimalRepr m) : n = m := by
  unfold natDecimalRepr at h
  rw [decDigitsAux_eq_digits n n le_rfl, decDigitsAux_eq_digits m m le_rfl] at h
  by_cases hn : n = 0 <;> by_cases hm : m = 0
  · rw [hn, hm]
  · exfalso
    rw [if_pos hn, if_neg hm] at h
    have hd : (("0" : String)).data = (String.mk (((Nat.digits 10 m).map digitCharOf).reverse)).data :=
      congrArg String.data h
    have hrev : ((Nat.digits 10 m).map digitCharOf).reverse = [Char.ofNat 48] := hd.symm
    have hmap : (Nat.digits 10 m).map digitCharOf = [Char.ofNat 48] := by
      have := congrArg List.reverse hrev
      simpa using this
    cases hdig : Nat.digits 10 m with
    | nil => rw [hdig] at hmap; simp at hmap
    | cons d ds =>
      rw [hdig] at hmap
      simp only [List.map_cons, List.cons.injEq] at hmap
      have hds : ds = [] := by
        have := hmap.2
        cases ds with
        | nil => rfl
        | cons a as => simp at this
      have hmem : d ∈ Nat.digits 10 m := by rw [hdig]; exact List.mem_cons_self d ds
      have hd10 : d < 10 := Nat.digits_lt_base (by norm_num) hmem
      have hd0 : d = 0 := digitCharOf_inj d 0 hd10 (by norm_num) (by rw [hmap.1]; rfl)
      have : m = 0 := by
        have hofd := Nat.ofDigits_digits 10 m
        rw [hdig, hds, hd0] at hofd
        simpa using hofd.symm
      exact hm this
  · exfalso
    rw [if_neg hn, if_pos hm] at h
    have hd : (String.mk (((Nat.digits 10 n).map digitCharOf).reverse)).data = (("0" : String)).data :=
      congrArg String.data h
    have hrev : ((Nat.digits 10 n).map digitCharOf).reverse = [Char.ofNat 48] := hd
    have hmap : (Nat.digits 10 n).map digitCharOf = [Char.ofNat 48] := by
      have := congrArg List.reverse hrev
      simpa using this
    cases hdig : Nat.digits 10 n with
    | nil => rw [hdig] at hmap; simp at hmap
    | cons d ds =>
      rw [hdig] at hmap
      simp only [List.map_cons, List.cons.injEq] at hmap
      have hds : ds = [] := by
        have := hmap.2
        cases ds with
        | nil => rfl
        | cons a as => simp at this
      have hmem : d ∈ Nat.digits 10 n := by rw [hdig]; exact List.mem_cons_self d ds
      have hd10 : d < 10 := Nat.digits_lt_base (by norm_num) hmem
      have hd0 : d = 0 := digitCharOf_inj d 0 hd10 (by norm_num) (by rw [hmap.1]; rfl)
      have : n = 0 := by
        have hofd := Nat.ofDigits_digits 10 n
        rw [hdig, hds, hd0] at hofd
        simpa using hofd.symm
      exact hn this
  · rw [if_neg hn, if_neg hm] at h
    have hd := congrArg String.data h
    simp only at hd
    have hrev := List.reverse_injective hd
    have hdig := map_digitCharOf_inj (Nat.digits 10 n) (Nat.digits 10 m)
      (fun x hx => Nat.digits_lt_base (by norm_num) hx)
      (fun x hx => Nat.digits_lt_base (by norm_num) hx) hrev
    exact Nat.digits.injective 10 hdig

/-! Claim theorems. -/

/-- Claim C2, counterexample: the claim says every VersionControlClient
operation swallows subprocess errors and never throws, but
`GitClient.status` has no try/catch — in an environment where the git
subprocess fails, `status` propagates the rejection to the caller as an
exception. -/
theorem gitClient_status_throws_counterexample :
    GitClient.status (fun _ => ExecResult.err "fatal: not a git repository") =
      Except.error "fatal: not a git repository" := rfl

/-- Claim C2, amended: only `commit`, `push`, `createBranch` and `checkout`
swallow subprocess errors into a null/false failure signal and never throw;
`status`, `diffNames`, `add` and `currentBranch` propagate the subprocess
error to the caller. -/
theorem gitClient_error_swallowing_amended (env : Exec) (message : String)
    (author : Option String) (branch : Option String) (nm br2 pth : String) :
    neverThrew (GitClient.commit env message author) = true ∧
    neverThrew (GitClient.push env branch) = true ∧
    neverThrew (GitClient.createBranch env nm) = true ∧
    neverThrew (GitClient.checkout env br2) = true ∧
    (∀ m, env "git status --porcelain" = ExecResult.err m →
      GitClient.status env = Except.error m) ∧
    (∀ m, env "git diff --name-only" = ExecResult.err m →
      GitClient.diffNames env = Except.error m) ∧
    (∀ m, env ("git add " ++ pth) = ExecResult.err m →
      GitClient.add env pth = Except.error m) ∧
    (∀ m, env "git branch --show-current" = ExecResult.err m →
      GitClient.currentBranch env = Except.error m) := by
  refine ⟨rfl, ?_, ?_, ?_, ?_, ?_, ?_, ?_⟩
  · unfold GitClient.push
    split <;> rfl
  · unfold GitClient.createBranch
    split <;> rfl
  · unfold GitClient.checkout
    split <;> rfl
  · intro m hm
    unfold GitClient.status GitClient.run
    rw [hm]
  · intro m hm
    unfold GitClient.diffNames GitClient.run
    rw [hm]
    rfl
  · intro m hm
    unfold GitClient.add GitClient.run
    rw [hm]
    rfl
  · intro m hm
    unfold GitClient.currentBranch GitClient.run
    rw [hm]

/-- Witness for the amended claim C2 at a concrete always-failing
environment. -/
theorem gitClient_error_swallowing_amended_witness :
    neverThrew (GitClient.commit (fun _ => ExecResult.err "boom") "msg" none) = true ∧
    neverThrew (GitClient.push (fun _ => ExecResult.err "boom") none) = true ∧
    neverThrew (GitClient.createBranch (fun _ => ExecResult.err "boom") "feat") = true ∧
    neverThrew (GitClient.checkout (fun _ => ExecResult.err "boom") "main") = true ∧
    (∀ m, (fun _ => ExecResult.err "boom") "git status --porcelain" = ExecResult.err m →
      GitClient.status (fun _ => ExecResult.err "boom") = Except.error m) ∧
    (∀ m, (fun _ => ExecResult.err "boom") "git diff --name-only" = ExecResult.err m →
      GitClient.diffNames (fun _ => ExecResult.err "boom") = Except.error m) ∧
    (∀ m, (fun _ => ExecResult.err "boom") ("git add " ++ ".") = ExecResult.err m →
      GitClient.add (fun _ => ExecResult.err "boom") "." = Except.error m) ∧
    (∀ m, (fun _ => ExecResult.err "boom") "git branch --show-current" = ExecResult.err m →
      GitClient.currentBranch (fun _ => ExecResult.err "boom") = Except.error m) :=
  gitClient_error_swallowing_amended (fun _ => ExecResult.err "boom") "msg" none none "feat" "main" "."

/-- Claim C3: every failing `runTask` invocation — non-zero exit, timeout,
or output-buffer overflow — yields a TaskResult with `success = false` and
a non-empty output (the captured stderr when there is one, otherwise the
never-empty error message attached by the runtime). -/
theorem runTask_failure_result (f : EngineFailure) (systemPrompt : String)
    (history : List TaskResult) (prompt : String) (t0 t1 : Nat) :
    (runTask systemPrompt history prompt (ExecOutcome.error (failureError f)) t0 t1).1.success
        = false ∧
    (runTask systemPrompt history prompt (ExecOutcome.error (failureError f)) t0 t1).1.output
        ≠ "" := by
  refine ⟨rfl, ?_⟩
  show (if (failureError f).stderr ≠ "" then (failureError f).stderr
    else (failureError f).message) ≠ ""
  split
  · assumption
  · cases f with
    | nonZeroExit cmd code st => exact string_append_ne_empty "Command failed: " cmd (by decide)
    | timeout cmd st => exact string_append_ne_empty "Command failed: " cmd (by decide)
    | maxBufferExceeded st =>
      show ("stdout maxBuffer length exceeded" : String) ≠ ""
      decide

/-- Claim C4: whenever `diffNames` reports a clean diff, `commitChanges`
returns hash `none` with an empty file list, and the only subprocess
command it has issued is the diff query itself — no `git add` and no
`git commit` are run. -/
theorem commitChanges_noop_on_clean (env : Exec) (agentName message : String)
    (issueNumber : Option Nat) (h : GitClient.diffNames env = Except.ok []) :
    commitChanges env agentName message issueNumber =
      Except.ok ({ hash := none, files := [], message := none }, ["git diff --name-only"]) ∧
    ∀ r, commitChanges env agentName message issueNumber = Except.ok r →
      ∀ c ∈ r.2, c.take 7 ≠ "git add" ∧ c.take 10 ≠ "git commit" := by
  have heq : commitChanges env agentName message issueNumber =
      Except.ok ({ hash := none, files := [], message := none }, ["git diff --name-only"]) := by
    unfold commitChanges
    rw [h]
    simp
  refine ⟨heq, ?_⟩
  intro r hr c hc
  rw [heq] at hr
  cases hr
  simp only [List.mem_singleton] at hc
  rw [hc]
  exact ⟨by decide, by decide⟩

/-- Witness for claim C4 at a concrete clean-repository environment. -/
theorem commitChanges_noop_on_clean_witness :
    GitClient.diffNames (fun _ => ExecResult.ok "") = Except.ok [] ∧
    commitChanges (fun _ => ExecResult.ok "") "amber" "fix: cleanup" none =
      Except.ok ({ hash := none, files := [], message := none }, ["git diff --name-only"]) :=
  ⟨rfl, (commitChanges_noop_on_clean (fun _ => ExecResult.ok "") "amber" "fix: cleanup" none rfl).1⟩

/-- Claim C5: each `requestApproval` call appends exactly one request to the
in-memory pending list (the previous list plus the new request, so its
length grows by exactly one), and afterwards the on-disk snapshot holds
exactly the full current in-memory list in order. -/
theorem requestApproval_monotone_snapshot (st : AgentState) (now : Nat) (d t : String)
    (o : Option (List String)) :
    (requestApproval st now d t o).2.pendingApprovals =
      st.pendingApprovals ++ [(requestApproval st now d t o).1] ∧
    (requestApproval st now d t o).2.pendingApprovals.length =
      st.pendingApprovals.length + 1 ∧
    (requestApproval st now d t o).2.approvalsFile =
      (requestApproval st now d t o).2.pendingApprovals := by
  refine ⟨rfl, ?_, rfl⟩
  simp [requestApproval]

/-- Claim C7: in the event trace of one `runTask` call, the starting
notification occurs strictly before the engine subprocess call, which
occurs strictly before the completion-side (completed or failed)
notification, for every engine outcome. -/
theorem runTask_notification_ordering (systemPrompt : String) (history : List TaskResult)
    (prompt : String) (outcome : ExecOutcome) (t0 t1 : Nat) :
    ∃ i j k : Nat, i < j ∧ j < k ∧
      (runTask systemPrompt history prompt outcome t0 t1).2.2.get? i =
        some (Event.notified "Starting task..." "info") ∧
      (runTask systemPrompt history prompt outcome t0 t1).2.2.get? j =
        some (Event.execCall (buildClaudeCommand systemPrompt prompt)) ∧
      (runTask systemPrompt history prompt outcome t0 t1).2.2.get? k =
        some (Event.notified (completionNotice outcome).1 (completionNotice outcome).2) := by
  cases outcome with
  | ok stdout stderr => exact ⟨1, 2, 4, by omega, by omega, rfl, rfl, rfl⟩
  | error e => exact ⟨1, 2, 4, by omega, by omega, rfl, rfl, rfl⟩

/-- Claim C8, counterexample: a caller that explicitly passes an empty
options list gets an ApprovalRequest whose options list is empty, so the
claim that every created request has a non-empty options list fails. -/
theorem requestApproval_empty_options_counterexample :
    (requestApproval { pendingApprovals := [], approvalsFile := [] } 0 "Deploy prod" "confirm"
      (some [])).1.options = [] := rfl

/-- Claim C8, amended: when the caller does not specify options, the
request carries the default three-option list Approve, Reject, Modify
(which is non-empty); an explicitly supplied options list is stored
unvalidated, so it is non-empty exactly when the caller passes a non-empty
list. -/
theorem requestApproval_options_amended (st : AgentState) (now : Nat) (d t : String) :
    (requestApproval st now d t none).1.options = ["Approve", "Reject", "Modify"] ∧
    (requestApproval st now d t none).1.options ≠ [] ∧
    ∀ os, (requestApproval st now d t (some os)).1.options = os := by
  refine ⟨rfl, ?_, fun os => rfl⟩
  show (["Approve", "Reject", "Modify"] : List String) ≠ []
  decide

/-- Claim C9, counterexample: two distinct successive `requestApproval`
calls that observe the same millisecond clock value produce identical
taskIds, so the generated time-based identifiers are not unique. -/
theorem requestApproval_id_collision_counterexample :
    ((requestApproval { pendingApprovals := [], approvalsFile := [] } 1700000000000
        "first request" "a" none).1.taskId =
      (requestApproval
        (requestApproval { pendingApprovals := [], approvalsFile := [] } 1700000000000
          "first request" "a" none).2
        1700000000000 "second request" "b" none).1.taskId) ∧
    ("first request" : String) ≠ "second request" := by
  exact ⟨rfl, by decide⟩

/-- Claim C9, amended: the taskIds of two `requestApproval` calls are
distinct whenever the two calls observe distinct millisecond clock values;
calls within the same millisecond collide. -/
theorem requestApproval_ids_distinct_amended (st1 st2 : AgentState) (now1 now2 : Nat)
    (d1 t1 d2 t2 : String) (o1 o2 : Option (List String)) (h : now1 ≠ now2) :
    (requestApproval st1 now1 d1 t1 o1).1.taskId ≠
      (requestApproval st2 now2 d2 t2 o2).1.taskId := by
  intro heq
  exact h (natDecimalRepr_inj (string_append_left_cancel heq))

/-- Witness for the amended claim C9 at two concrete distinct clock
values. -/
theorem requestApproval_ids_distinct_witness :
    (1 : Nat) ≠ 2 ∧
    (requestApproval { pendingApprovals := [], approvalsFile := [] } 1 "a" "b" none).1.taskId ≠
      (requestApproval { pendingApprovals := [], approvalsFile := [] } 2 "c" "d" none).1.taskId :=
  ⟨by decide,
    requestApproval_ids_distinct_amended { pendingApprovals := [], approvalsFile := [] }
      { pendingApprovals := [], approvalsFile := [] } 1 2 "a" "b" "c" "d" none none (by decide)⟩

/-- Claim C1: the prompt is not delivered to the engine as a single literal
argument. `runTask` builds one shell command line with `exec` (shell
interpretation), escaping only double quotes, so a prompt containing a
command substitution passes through the escaping unchanged, still carries
shell-special characters inside its double quotes, and is expanded by the
shell rather than delivered literally. Evaluated here at the failing input
prompt containing a dollar-parenthesis command substitution. -/
theorem runTask_prompt_shell_interpreted :
    runTaskSpawnMode = SpawnMode.shellInterpreted ∧
    escapeQuotes "$(touch pwned)" = "$(touch pwned)" ∧
    deliveredLiterally "$(touch pwned)" = false ∧
    buildClaudeCommand "You are helpful" "$(touch pwned)" =
      "claude --print --system-prompt \"You are helpful\" \"$(touch pwned)\"" := by
  exact ⟨rfl, by decide, by decide, by decide⟩

/-- A configuration with all three notification channels enabled, used to
instantiate the notification theorems on a concrete input. -/
def cfgAllChannels : NotificationConfig :=
  { fileEnabled := true
    filePath := "log"
    macosEnabled := true
    smsEnabled := true
    smsPhone := some "15551234567" }

/-- A configuration with all channels enabled but no SMS phone number. -/
def cfgNoPhone : NotificationConfig :=
  { fileEnabled := true
    filePath := "log"
    macosEnabled := true
    smsEnabled := true
    smsPhone := none }

/-- A channel environment in which only the desktop-popup command fails. -/
def envMacosFails : ChannelEnv :=
  fun c => match c with
    | Channel.macos => some "osascript exited 1"
    | _ => none

/-- Claim C6: `notify` attempts delivery on exactly the enabled channels,
returns normally with every attempt settled (it never raises, whatever
channel failures the environment produces), and when the file channel is
enabled and its append succeeds the formatted message is appended to the
notification log regardless of the outcome of the other channels (the
environment, including a failing desktop-popup command, is universally
quantified). -/
theorem notify_settles_all_channels (cfg : NotificationConfig) (env : ChannelEnv)
    (agentName : String) (fileLog : List String) (message level timestamp : String) :
    (∃ results fileLog2,
      notify cfg env agentName fileLog message level timestamp = Except.ok (results, fileLog2) ∧
      results.map Prod.fst = enabledChannels cfg) ∧
    (cfg.fileEnabled = true → env Channel.file = none →
      ∀ results fileLog2,
        notify cfg env agentName fileLog message level timestamp =
          Except.ok (results, fileLog2) →
        fileLog2 = fileLog ++ [formatLine timestamp level agentName message]) := by
  constructor
  · refine ⟨_, _, rfl, ?_⟩
    cases hf : cfg.fileEnabled <;> cases hm : cfg.macosEnabled <;>
      cases hs : cfg.smsEnabled && phoneTruthy cfg.smsPhone <;>
      cases henv : env Channel.file <;>
      simp [enabledChannels, hf, hm, hs, henv]
  · intro hf henv results fileLog2 hnot
    simp [notify, hf, henv, Prod.ext_iff] at hnot
    exact hnot.2.symm

/-- Witness for claim C6 at a concrete configuration with all three
channels enabled and an environment in which the desktop-popup command
fails. -/
theorem notify_settles_all_channels_witness :
    (∃ results fileLog2,
      notify cfgAllChannels envMacosFails "amber" [] "hello" "info" "TS" =
        Except.ok (results, fileLog2) ∧
      results.map Prod.fst = enabledChannels cfgAllChannels) ∧
    (cfgAllChannels.fileEnabled = true → envMacosFails Channel.file = none →
      ∀ results fileLog2,
        notify cfgAllChannels envMacosFails "amber" [] "hello" "info" "TS" =
          Except.ok (results, fileLog2) →
        fileLog2 = [] ++ [formatLine "TS" "info" "amber" "hello"]) :=
  notify_settles_all_channels cfgAllChannels envMacosFails "amber" [] "hello" "info" "TS"

/-- Claim C10: when the SMS channel is enabled but no phone number is
configured, `notify` silently skips the SMS channel — it is not among the
dispatched channels and no error is raised — while the file and desktop
channels are still attempted according to their own flags. -/
theorem notify_sms_skipped_without_phone (cfg : NotificationConfig) (env : ChannelEnv)
    (agentName : String) (fileLog : List String) (message level timestamp : String)
    (_hsms : cfg.smsEnabled = true) (hphone : cfg.smsPhone = none) :
    ∃ results fileLog2,
      notify cfg env agentName fileLog message level timestamp = Except.ok (results, fileLog2) ∧
      results.map Prod.fst = enabledChannels cfg ∧
      Channel.sms ∉ results.map Prod.fst ∧
      enabledChannels cfg =
        (if cfg.fileEnabled then [Channel.file] else []) ++
        (if cfg.macosEnabled then [Channel.macos] else []) := by
  refine ⟨_, _, rfl, ?_, ?_, ?_⟩
  · cases hf : cfg.fileEnabled <;> cases hm : cfg.macosEnabled <;>
      cases henv : env Channel.file <;>
      simp [enabledChannels, hf, hm, henv, hphone, phoneTruthy]
  · cases hf : cfg.fileEnabled <;> cases hm : cfg.macosEnabled <;>
      cases henv : env Channel.file <;>
      simp [enabledChannels, hf, hm, henv, hphone, phoneTruthy]
  · simp [enabledChannels, hphone, phoneTruthy]

/-- Witness for claim C10 at a concrete configuration with SMS enabled but
no phone number. -/
theorem notify_sms_skipped_without_phone_witness :
    ∃ results fileLog2,
      notify cfgNoPhone (fun _ => none) "vera" [] "done" "info" "TS" =
        Except.ok (results, fileLog2) ∧
      results.map Prod.fst = enabledChannels cfgNoPhone ∧
      Channel.sms ∉ results.map Prod.fst ∧
      enabledChannels cfgNoPhone =
        (if cfgNoPhone.fileEnabled then [Channel.file] else []) ++
        (if cfgNoPhone.macosEnabled then [Channel.macos] else []) :=
  notify_sms_skipped_without_phone cfgNoPhone (fun _ => none) "vera" [] "done" "info" "TS"
    rfl rfl

end EntityAgents
